import Mathlib

/-!
Shallow embedding of the `aoko` repository's runtime functions
(`src/standard/fun.rs`) and of its declarative swap macro
(`src/no_std/macros/declarative.rs`), with theorems checking the
natural-language specification against the code.

Conventions of the embedding:
* A line of text is a `List Char`.
* Rust's `str::trim_end` trims characters with the Unicode `White_Space`
  property (`char::is_whitespace`); `rust_is_whitespace` lists exactly those
  code points.
* A `panic!` is modelled as `Except.error` carrying the panic message.
* Machine integers are `Nat`; where 128-bit widening matters a bound
  `< 2 ^ 128` is proved explicitly.
* Mutable references are modelled by a store `Nat → Nat` from locations to
  values, updated with `Function.update`; bit patterns of an XOR-assignable
  integer type are modelled by `Nat` with bitwise `^^^`.
-/

/-- Rust `char::is_whitespace`: the Unicode `White_Space` property. -/
def rust_is_whitespace (c : Char) : Bool :=
  let n := c.toNat
  n == 0x9 || n == 0xA || n == 0xB || n == 0xC || n == 0xD || n == 0x20 ||
  n == 0x85 || n == 0xA0 || n == 0x1680 || (0x2000 ≤ n && n ≤ 0x200A) ||
  n == 0x2028 || n == 0x2029 || n == 0x202F || n == 0x205F || n == 0x3000

/-- Rust `str::trim_end`: drop the longest whitespace suffix. -/
def trim_end (l : List Char) : List Char :=
  (l.reverse.dropWhile rust_is_whitespace).reverse

/-- Outcome of one call to `stdin().read_line(&mut s)` on an initially empty
buffer `s`: the `io::Result` (success or failure) together with the buffer
content after the call. -/
inductive ReadOutcome : Type
  | success (content : List Char)
  | failure (content : List Char)

/-- The buffer content `also_mut` hands on: `also_mut` runs the closure for
its side effect and DISCARDS the closure's result, so the `io::Result`
returned by `stdin().read_line` is dropped and only the buffer survives. -/
def buffer_after : ReadOutcome → List Char
  | .success content => content
  | .failure content => content

/-- `read_line` (fun.rs:22-26): trim the buffer's trailing whitespace and
return `some` exactly when the trimmed text is non-empty. The function's
return type has no error variant: the read's own `io::Result` was discarded
by `also_mut`. -/
def read_line (o : ReadOutcome) : Option (List Char) :=
  let s := trim_end (buffer_after o)
  if s.length > 0 then some s else none

/-- One `read_line`-style pull from a modelled stdin stream: a list of raw
line strings still unread.  At end of stream Rust's `read_line` returns
`Ok(0)` leaving the buffer empty. -/
def stdin_pull : List (List Char) → ReadOutcome × List (List Char)
  | [] => (.success [], [])
  | l :: rest => (.success l, rest)

/-- `wait_enter` (fun.rs:31-33): `while read_line() != None {}`.  The model
returns the part of the stdin stream left unconsumed. -/
def wait_enter : List (List Char) → List (List Char)
  | [] => []
  | l :: rest =>
    match read_line (.success l) with
    | some _ => wait_enter rest
    | none => rest

/-- Rust `std::time::Duration`: whole seconds plus a sub-second nanosecond
part (invariant `nanos < 10 ^ 9`, carried as a hypothesis where needed). -/
structure Duration : Type where
  secs : Nat
  nanos : Nat
deriving DecidableEq, Repr

/-- `Duration::as_nanos` (widened to `u128` in Rust). -/
def Duration.as_nanos (d : Duration) : Nat :=
  d.secs * 1000000000 + d.nanos

/-- `Duration::as_micros`. -/
def Duration.as_micros (d : Duration) : Nat :=
  d.secs * 1000000 + d.nanos / 1000

/-- `Duration::as_millis`. -/
def Duration.as_millis (d : Duration) : Nat :=
  d.secs * 1000 + d.nanos / 1000000

/-- `Duration::as_secs` (the Rust code casts it `as u128`). -/
def Duration.as_secs (d : Duration) : Nat :=
  d.secs

/-- `Duration::from_secs`. -/
def Duration.from_secs (s : Nat) : Duration :=
  ⟨s, 0⟩

/-- `Duration::from_millis`. -/
def Duration.from_millis (ms : Nat) : Duration :=
  ⟨ms / 1000, ms % 1000 * 1000000⟩

/-- `time_conversion` (fun.rs:64-72): match on the unit string, returning the
projection closure; any other string panics with "unsupported unit",
modelled as `Except.error`. -/
def time_conversion (u : String) : Except String (Duration → Nat) :=
  if u = "nanos" then .ok fun elapsed => elapsed.as_nanos
  else if u = "micros" then .ok fun elapsed => elapsed.as_micros
  else if u = "millis" then .ok fun elapsed => elapsed.as_millis
  else if u = "secs" then .ok fun elapsed => elapsed.as_secs
  else .error "unsupported unit"

/-- `time_conversion_with_unit` (fun.rs:76-78):
`time_conversion(&u).let_owned(|f| (f, u))` — a panic in `time_conversion`
propagates, otherwise the selected function is paired with the unit string. -/
def time_conversion_with_unit (u : String) :
    Except String ((Duration → Nat) × String) :=
  (time_conversion u).map fun f => (f, u)

/-- `swap_xor` (fun.rs:45-49) over a store from locations to bit patterns:
`*a ^= *b; *b ^= *a; *a ^= *b` at locations `a` and `b`. -/
def swap_xor (σ : Nat → Nat) (a b : Nat) : Nat → Nat :=
  let σ1 := Function.update σ a (σ a ^^^ σ b)
  let σ2 := Function.update σ1 b (σ1 b ^^^ σ1 a)
  Function.update σ2 a (σ2 a ^^^ σ2 b)

/-- A world for modelling closures with effects: a monotonic clock reading
plus arbitrary user state.  `Instant::now` reads `time`; a closure may
advance it. -/
structure World (σ : Type) : Type where
  time : Nat
  user : σ

/-- `measure_time_with_value` (fun.rs:58-60):
`Instant::now().let_owned(|s| (f(), s.elapsed()))`.  The closure is modelled
as a world transformer that can fail (a Rust panic is `Except.error`); on
success the closure's value is returned together with the elapsed time
`after - before` (Rust's `Instant::elapsed`, never negative). -/
def measure_time_with_value {σ ε ρ : Type}
    (f : World σ → Except ε (World σ × ρ)) (w : World σ) :
    Except ε (World σ × ρ × Nat) :=
  let start := w.time
  match f w with
  | .error e => .error e
  | .ok (w2, v) => .ok (w2, v, w2.time - start)

/-- One pair of the `swap!` macro expansion (declarative.rs:52-56):
`let ($b, $a) = ($a, $b);` rebinds `b` to the old value of `a` and `a` to
the old value of `b`, over an environment from names to values. -/
def swap_step (env : String → Nat) (a b : String) : String → Nat :=
  Function.update (Function.update env b (env a)) a (env b)

/-- The full `swap!` expansion: the pairs are processed left to right. -/
def swap_form (env : String → Nat) : List (String × String) → (String → Nat)
  | [] => env
  | (a, b) :: ps => swap_form (swap_step env a b) ps

/-- The names occurring in a `swap!` pair list, in order. -/
def swap_names (ps : List (String × String)) : List String :=
  ps.flatMap fun p => [p.1, p.2]

/-! ## Helper lemmas -/

theorem trim_end_decomposition (l : List Char) :
    l = trim_end l ++ (l.reverse.takeWhile rust_is_whitespace).reverse := by
  unfold trim_end
  conv_lhs => rw [← l.reverse_reverse,
    ← List.takeWhile_append_dropWhile (p := rust_is_whitespace) (l := l.reverse)]
  rw [List.reverse_append]

theorem trim_end_last_not_white (l : List Char) (c : Char)
    (h : (trim_end l).getLast? = some c) : rust_is_whitespace c = false := by
  unfold trim_end at h
  rw [List.getLast?_reverse] at h
  have h2 := List.head?_dropWhile_not rust_is_whitespace l.reverse
  rw [h] at h2
  exact h2

/-- C1: the claim says a failed stdin read propagates as a fatal error and
never yields `none`.  The code discards the `io::Result` inside `also_mut`,
so on a failed read (buffer left empty, e.g. closed stream) `read_line`
returns `none`, and in general a failed read is indistinguishable from a
successful one with the same buffer content; the `Option` return type has no
error variant to propagate through. -/
theorem read_line_failure_returns_none :
    read_line (.failure []) = none ∧
    ∀ content, read_line (.failure content) = read_line (.success content) := by
  exact ⟨rfl, fun _ => rfl⟩

/-- C2: on a successful read, `read_line` trims only trailing whitespace
(the trimmed text is a prefix of the line, so leading whitespace survives,
and what is dropped is all whitespace), and returns `none` exactly when the
trimmed text is empty, otherwise `some` of exactly the trimmed text. -/
theorem read_line_trim_spec (l : List Char) :
    (read_line (.success l) = none ↔ (trim_end l).length = 0) ∧
    ((trim_end l).length > 0 → read_line (.success l) = some (trim_end l)) ∧
    (∃ ws, l = trim_end l ++ ws ∧ ∀ c ∈ ws, rust_is_whitespace c = true) ∧
    (∀ c, (trim_end l).getLast? = some c → rust_is_whitespace c = false) := by
  refine ⟨?_, ?_, ?_, trim_end_last_not_white l⟩
  · simp only [read_line, buffer_after]
    split
    · rename_i h
      constructor
      · intro hc; exact Option.noConfusion hc
      · intro h0; omega
    · rename_i h
      constructor
      · intro _; omega
      · intro _; rfl
  · intro h
    simp only [read_line, buffer_after]
    rw [if_pos h]
  · refine ⟨(l.reverse.takeWhile rust_is_whitespace).reverse,
      trim_end_decomposition l, ?_⟩
    intro c hc
    rw [List.mem_reverse] at hc
    exact List.mem_takeWhile_imp hc

/-- C2 witness: concrete lines, evaluating `read_line` through the theorem. -/
theorem read_line_trim_spec_witness :
    read_line (.success (" ab ".data)) = some (" ab".data) := by
  have h := (read_line_trim_spec (" ab ".data)).2.1 (by decide)
  rw [h]
  decide

/-- C7: `wait_enter` keeps calling `read_line` and returns exactly at the
first pull whose `read_line` is `none` (blank line or end of stream); on the
stream "a\n", "b\n", "\n" it consumes all three lines and returns after the
third, whose line trims to empty while the first two yield a value. -/
theorem wait_enter_spec :
    (∀ stdin, wait_enter stdin =
      (stdin.dropWhile fun l => (read_line (.success l)).isSome).tail) ∧
    wait_enter [("a\n").data, ("b\n").data, ("\n").data] = [] ∧
    (read_line (.success ("a\n").data)).isSome = true ∧
    (read_line (.success ("b\n").data)).isSome = true ∧
    read_line (.success ("\n").data) = none := by
  refine ⟨?_, by decide, by decide, by decide, by decide⟩
  intro stdin
  induction stdin with
  | nil => rfl
  | cons l rest ih =>
    unfold wait_enter
    cases h : read_line (.success l) with
    | some v => simp [List.dropWhile_cons, h, ih]
    | none => simp [List.dropWhile_cons, h]

/-- C3: the four unit conversions are the true nanosecond count of the
duration and its truncating divisions into microseconds, milliseconds and
whole seconds; the count fits in 128 bits (so the u128 widening is exact),
and the two concrete examples from the spec hold. -/
theorem time_conversion_units (d : Duration)
    (h9 : d.nanos < 1000000000) (h64 : d.secs < 2 ^ 64) :
    (time_conversion "nanos").map (fun f => f d)
      = .ok (d.secs * 1000000000 + d.nanos) ∧
    (time_conversion "micros").map (fun f => f d)
      = .ok ((d.secs * 1000000000 + d.nanos) / 1000) ∧
    (time_conversion "millis").map (fun f => f d)
      = .ok ((d.secs * 1000000000 + d.nanos) / 1000000) ∧
    (time_conversion "secs").map (fun f => f d)
      = .ok ((d.secs * 1000000000 + d.nanos) / 1000000000) ∧
    d.secs * 1000000000 + d.nanos < 2 ^ 128 ∧
    (time_conversion "millis").map (fun f => f (Duration.from_secs 2))
      = .ok 2000 ∧
    (time_conversion "secs").map (fun f => f (Duration.from_millis 2500))
      = .ok 2 := by
  refine ⟨?_, ?_, ?_, ?_, ?_, ?_, ?_⟩
  · simp [time_conversion, Except.map, Duration.as_nanos]
  · simp only [time_conversion, if_neg, if_pos, reduceIte, Except.map]
    simp [Duration.as_micros]
    omega
  · simp only [time_conversion, reduceIte, Except.map]
    simp [Duration.as_millis]
    omega
  · simp only [time_conversion, reduceIte, Except.map]
    simp [Duration.as_secs]
    omega
  · have : (2 : Nat) ^ 64 * 1000000000 + 1000000000 < 2 ^ 128 := by norm_num
    calc d.secs * 1000000000 + d.nanos
        < 2 ^ 64 * 1000000000 + 1000000000 := by
          have := Nat.mul_le_mul_right 1000000000 (Nat.le_of_lt h64)
          omega
      _ < 2 ^ 128 := this
  · simp [time_conversion, Except.map, Duration.from_secs, Duration.as_millis]
  · simp [time_conversion, Except.map, Duration.from_millis, Duration.as_secs]

/-- C3 witness: a concrete duration of 2.5 s. -/
theorem time_conversion_units_witness :
    (time_conversion "micros").map (fun f => f ⟨2, 500000000⟩)
      = .ok 2500000 := by
  have h := (time_conversion_units ⟨2, 500000000⟩ (by decide) (by norm_num)).2.1
  rw [h]
  norm_num

/-- C4: `time_conversion` succeeds exactly on the four literal unit strings
(case-sensitive exact match) and on every other string immediately panics
with the "unsupported unit" message — no fallback value exists. -/
theorem time_conversion_validation (u : String) :
    ((∃ f, time_conversion u = .ok f) ↔
      u = "nanos" ∨ u = "micros" ∨ u = "millis" ∨ u = "secs") ∧
    (¬(u = "nanos" ∨ u = "micros" ∨ u = "millis" ∨ u = "secs") →
      time_conversion u = .error "unsupported unit") := by
  unfold time_conversion
  split_ifs <;> simp_all

/-- C4 witness: an unknown unit and a wrong-case unit both panic; a correct
literal succeeds. -/
theorem time_conversion_validation_witness :
    time_conversion "bogus" = .error "unsupported unit" ∧
    time_conversion "Nanos" = .error "unsupported unit" ∧
    ∃ f, time_conversion "nanos" = .ok f := by
  refine ⟨(time_conversion_validation "bogus").2 (by decide),
    (time_conversion_validation "Nanos").2 (by decide),
    (time_conversion_validation "nanos").1.mpr (by decide)⟩

/-- C8: `time_conversion_with_unit` succeeds exactly when `time_conversion`
does, fails with the same error when it fails, and on success returns the
unit string unchanged paired with a function extensionally equal to the one
`time_conversion` selects. -/
theorem time_conversion_with_unit_refines (u : String) :
    ((∃ p, time_conversion_with_unit u = .ok p) ↔
      ∃ f, time_conversion u = .ok f) ∧
    (∀ e, time_conversion_with_unit u = .error e ↔
      time_conversion u = .error e) ∧
    (∀ f s, time_conversion_with_unit u = .ok (f, s) →
      s = u ∧ ∃ g, time_conversion u = .ok g ∧ ∀ d, f d = g d) := by
  cases h : time_conversion u with
  | ok g =>
    refine ⟨by simp [time_conversion_with_unit, h, Except.map], ?_, ?_⟩
    · intro e
      simp [time_conversion_with_unit, h, Except.map]
    · intro f s hfs
      simp only [time_conversion_with_unit, h, Except.map, Except.ok.injEq,
        Prod.mk.injEq] at hfs
      exact ⟨hfs.2.symm, g, rfl, fun d => by rw [hfs.1]⟩
  | error e2 =>
    refine ⟨by simp [time_conversion_with_unit, h, Except.map], ?_, ?_⟩
    · intro e
      simp [time_conversion_with_unit, h, Except.map]
    · intro f s hfs
      simp [time_conversion_with_unit, h, Except.map] at hfs

/-- C8 witness: at the literal "nanos", the returned label is the same
string and the returned function agrees with the one `time_conversion`
selects. -/
theorem time_conversion_with_unit_refines_witness :
    "nanos" = "nanos" ∧
    ∃ g, time_conversion "nanos" = .ok g ∧
      ∀ d, Duration.as_nanos d = g d := by
  exact (time_conversion_with_unit_refines "nanos").2.2
    Duration.as_nanos "nanos" rfl

/-- Evaluation of the three XOR assignments at, and away from, the two
locations, under the non-aliasing precondition. -/
theorem swap_xor_eval (σ : Nat → Nat) (a b : Nat) (h : a ≠ b) :
    swap_xor σ a b a = σ b ∧ swap_xor σ a b b = σ a ∧
    ∀ l, l ≠ a → l ≠ b → swap_xor σ a b l = σ l := by
  refine ⟨?_, ?_, ?_⟩
  · simp [swap_xor, Function.update_apply, h, Ne.symm h]
    rw [Nat.xor_comm (σ a) (σ b), Nat.xor_cancel_left, Nat.xor_cancel_right]
  · simp [swap_xor, Function.update_apply, h, Ne.symm h]
    rw [Nat.xor_comm (σ a) (σ b), Nat.xor_cancel_left]
  · intro l hla hlb
    simp [swap_xor, Function.update_apply, hla, hlb]

/-- C5: under the non-aliasing precondition, `swap_xor` leaves the two
locations holding each other's old values. -/
theorem swap_xor_exchanges (σ : Nat → Nat) (a b : Nat) (h : a ≠ b) :
    swap_xor σ a b a = σ b ∧ swap_xor σ a b b = σ a :=
  ⟨(swap_xor_eval σ a b h).1, (swap_xor_eval σ a b h).2.1⟩

/-- C5 witness: a concrete store with values 10 and 11 at locations 0, 1. -/
theorem swap_xor_exchanges_witness :
    swap_xor (fun n => n + 10) 0 1 0 = 11 ∧
    swap_xor (fun n => n + 10) 0 1 1 = 10 := by
  obtain ⟨h1, h2⟩ := swap_xor_exchanges (fun n => n + 10) 0 1 (by decide)
  exact ⟨by rw [h1], by rw [h2]⟩

/-- C10: applying `swap_xor` twice to the same two distinct locations
restores the whole store, the two swapped locations included. -/
theorem swap_xor_involution (σ : Nat → Nat) (a b : Nat) (h : a ≠ b) :
    ∀ l, swap_xor (swap_xor σ a b) a b l = σ l := by
  intro l
  obtain ⟨h1, h2, hf⟩ := swap_xor_eval σ a b h
  obtain ⟨g1, g2, gf⟩ := swap_xor_eval (swap_xor σ a b) a b h
  by_cases la : l = a
  · subst la
    rw [g1, h2]
  · by_cases lb : l = b
    · subst lb
      rw [g2, h1]
    · rw [gf l la lb, hf l la lb]

/-- C10 witness: double swap at locations 0 and 1 of a concrete store. -/
theorem swap_xor_involution_witness :
    swap_xor (swap_xor (fun n => n + 20) 0 1) 0 1 0 = 20 ∧
    swap_xor (swap_xor (fun n => n + 20) 0 1) 0 1 1 = 21 := by
  have h0 := swap_xor_involution (fun n => n + 20) 0 1 (by decide) 0
  have h1 := swap_xor_involution (fun n => n + 20) 0 1 (by decide) 1
  exact ⟨by rw [h0], by rw [h1]⟩

/-- C6: `measure_time_with_value` evaluates the closure exactly once — the
state it returns is the state after a single invocation of `f` — and on
success returns exactly the value `f` produced (identical to calling `f`
directly) together with the elapsed time; if `f` fails, the same failure is
returned unmodified and no duration is produced. -/
theorem measure_time_with_value_spec {σ ε ρ : Type}
    (f : World σ → Except ε (World σ × ρ)) (w : World σ) :
    (∀ e, f w = .error e → measure_time_with_value f w = .error e) ∧
    (∀ w2 v, f w = .ok (w2, v) →
      measure_time_with_value f w = .ok (w2, v, w2.time - w.time)) := by
  constructor
  · intro e he
    simp [measure_time_with_value, he]
  · intro w2 v hv
    simp [measure_time_with_value, hv]

/-- C6 witness: a closure that takes 5 time units and doubles the user
counter, and a failing closure whose error comes back unmodified. -/
theorem measure_time_with_value_spec_witness :
    measure_time_with_value
      (fun w => (Except.ok ({ time := w.time + 5, user := w.user + 1 }, w.user * 2) :
        Except String (World Nat × Nat))) { time := 10, user := 3 }
      = Except.ok ({ time := 15, user := 4 }, 6, 5) ∧
    measure_time_with_value
      (fun _ => (Except.error "boom" : Except String (World Nat × Nat)))
      { time := 10, user := 3 }
      = Except.error "boom" := by
  constructor
  · have h := (measure_time_with_value_spec
      (fun w => (Except.ok ({ time := w.time + 5, user := w.user + 1 }, w.user * 2) :
        Except String (World Nat × Nat))) { time := 10, user := 3 }).2
      { time := 15, user := 4 } 6 rfl
    rw [h]
    rfl
  · exact (measure_time_with_value_spec _ _).1 "boom" rfl

theorem mem_swap_names_left (ps : List (String × String)) (p : String × String)
    (hp : p ∈ ps) : p.1 ∈ swap_names ps := by
  simp only [swap_names, List.mem_flatMap]
  exact ⟨p, hp, by simp⟩

theorem mem_swap_names_right (ps : List (String × String)) (p : String × String)
    (hp : p ∈ ps) : p.2 ∈ swap_names ps := by
  simp only [swap_names, List.mem_flatMap]
  exact ⟨p, hp, by simp⟩

/-- C9: the swap form processes its pairs left to right and, provided all
the names are distinct, finally binds each pair's first name to the second
name's old value and vice versa, leaving every other name unchanged. -/
theorem swap_form_spec (ps : List (String × String)) (env : String → Nat)
    (hnd : (swap_names ps).Nodup) :
    (∀ p ∈ ps, swap_form env ps p.1 = env p.2 ∧ swap_form env ps p.2 = env p.1) ∧
    (∀ x, x ∉ swap_names ps → swap_form env ps x = env x) := by
  induction ps generalizing env with
  | nil =>
    exact ⟨fun p hp => absurd hp (List.not_mem_nil p), fun x _ => rfl⟩
  | cons hd tl ih =>
    obtain ⟨a, b⟩ := hd
    have hnames : swap_names ((a, b) :: tl) = a :: b :: swap_names tl := rfl
    rw [hnames] at hnd
    obtain ⟨ha, hnd2⟩ := List.nodup_cons.mp hnd
    obtain ⟨hb, hnd3⟩ := List.nodup_cons.mp hnd2
    have hab : a ≠ b := by
      intro hEq
      exact ha (by rw [hEq]; exact List.mem_cons_self b _)
    have hA : a ∉ swap_names tl := fun hm => ha (List.mem_cons_of_mem b hm)
    have ea : swap_step env a b a = env b := by
      simp [swap_step]
    have eb : swap_step env a b b = env a := by
      simp [swap_step, Function.update_apply, Ne.symm hab]
    have eo : ∀ x, x ≠ a → x ≠ b → swap_step env a b x = env x := by
      intro x hxa hxb
      simp [swap_step, Function.update_apply, hxa, hxb]
    have hsf : swap_form env ((a, b) :: tl) = swap_form (swap_step env a b) tl := rfl
    obtain ⟨ih1, ih2⟩ := ih (swap_step env a b) hnd3
    constructor
    · intro p hp
      rcases List.mem_cons.mp hp with hph | hpt
      · rw [hph, hsf]
        constructor
        · rw [ih2 a hA, ea]
        · rw [ih2 b hb, eb]
      · have hp1 : p.1 ≠ a := fun hEq => hA (hEq ▸ mem_swap_names_left tl p hpt)
        have hp2 : p.2 ≠ a := fun hEq => hA (hEq ▸ mem_swap_names_right tl p hpt)
        have hp1b : p.1 ≠ b := fun hEq => hb (hEq ▸ mem_swap_names_left tl p hpt)
        have hp2b : p.2 ≠ b := fun hEq => hb (hEq ▸ mem_swap_names_right tl p hpt)
        obtain ⟨e1, e2⟩ := ih1 p hpt
        rw [hsf]
        exact ⟨by rw [e1, eo p.2 hp2 hp2b], by rw [e2, eo p.1 hp1 hp1b]⟩
    · intro x hx
      rw [hnames] at hx
      simp only [List.mem_cons, not_or] at hx
      obtain ⟨hxa, hxb, hxt⟩ := hx
      rw [hsf, ih2 x hxt, eo x hxa hxb]

/-- C9 witness: starting from (a, b, c, d) = (1, 2, 3, 4), swapping the
pairs (a,b) and (c,d) yields (a, b, c, d) = (2, 1, 4, 3). -/
theorem swap_form_spec_witness :
    swap_form
      (fun x => if x = "a" then 1 else if x = "b" then 2 else
        if x = "c" then 3 else if x = "d" then 4 else 0)
      [("a", "b"), ("c", "d")] "a" = 2 ∧
    swap_form
      (fun x => if x = "a" then 1 else if x = "b" then 2 else
        if x = "c" then 3 else if x = "d" then 4 else 0)
      [("a", "b"), ("c", "d")] "b" = 1 ∧
    swap_form
      (fun x => if x = "a" then 1 else if x = "b" then 2 else
        if x = "c" then 3 else if x = "d" then 4 else 0)
      [("a", "b"), ("c", "d")] "c" = 4 ∧
    swap_form
      (fun x => if x = "a" then 1 else if x = "b" then 2 else
        if x = "c" then 3 else if x = "d" then 4 else 0)
      [("a", "b"), ("c", "d")] "d" = 3 := by
  obtain ⟨h1, _⟩ := swap_form_spec [("a", "b"), ("c", "d")]
    (fun x => if x = "a" then 1 else if x = "b" then 2 else
      if x = "c" then 3 else if x = "d" then 4 else 0) (by decide)
  obtain ⟨hab1, hab2⟩ := h1 ("a", "b") (by decide)
  obtain ⟨hcd1, hcd2⟩ := h1 ("c", "d") (by decide)
  exact ⟨by simpa using hab1, by simpa using hab2,
    by simpa using hcd1, by simpa using hcd2⟩
